import Mathlib

/-!
Verification of the `jpath` path-expression evaluator (src/jpath/__init__.py).

The development shallowly embeds the Python module: JSON-like values become the
inductive type `Value`, Python exceptions become the `PyErr` error codes of an
`Except` result, and every helper below mirrors one construct of the source
(the `subscript_re` / `apex_re` / `brackets_re` regexes, `str.split`, `int()`,
container indexing, and the element loop of `jpath`).  Python `==` on these
values is modelled by structural equality (dict equality is key-order
sensitive in the model; the trees appearing in the module and in the theorems
below never rely on reordered dict literals).  Scanning functions that walk a
string by consuming matched prefixes carry an explicit fuel argument so that
they stay structurally recursive (and hence compute inside the kernel); each
wrapper supplies `length + 1` fuel, which is always sufficient because every
consuming step removes at least one character and spends at most as many fuel
units as characters consumed.
-/

set_option linter.constructorNameAsVariable false

namespace JPath

/-- JSON-like values manipulated by the module: Python `None`, ints, strings,
lists and (string-keyed) dicts.  These are exactly the shapes occurring in the
module's own data (`d`, `a`, `nil`) and in JSON trees. -/
inductive Value where
  | null : Value
  | int : Int → Value
  | str : String → Value
  | list : List Value → Value
  | dict : List (String × Value) → Value

mutual
/-- Decidable structural equality on values, modelling Python `==` for the
JSON-like values above. -/
def decEqV : (a b : Value) → Decidable (a = b)
  | .null, .null => isTrue rfl
  | .null, .int _ => isFalse (fun h => Value.noConfusion h)
  | .null, .str _ => isFalse (fun h => Value.noConfusion h)
  | .null, .list _ => isFalse (fun h => Value.noConfusion h)
  | .null, .dict _ => isFalse (fun h => Value.noConfusion h)
  | .int _, .null => isFalse (fun h => Value.noConfusion h)
  | .int a, .int b =>
    match decEq a b with
    | isTrue h => isTrue (by rw [h])
    | isFalse h => isFalse (fun hh => h (Value.noConfusion hh id))
  | .int _, .str _ => isFalse (fun h => Value.noConfusion h)
  | .int _, .list _ => isFalse (fun h => Value.noConfusion h)
  | .int _, .dict _ => isFalse (fun h => Value.noConfusion h)
  | .str _, .null => isFalse (fun h => Value.noConfusion h)
  | .str _, .int _ => isFalse (fun h => Value.noConfusion h)
  | .str a, .str b =>
    match decEq a b with
    | isTrue h => isTrue (by rw [h])
    | isFalse h => isFalse (fun hh => h (Value.noConfusion hh id))
  | .str _, .list _ => isFalse (fun h => Value.noConfusion h)
  | .str _, .dict _ => isFalse (fun h => Value.noConfusion h)
  | .list _, .null => isFalse (fun h => Value.noConfusion h)
  | .list _, .int _ => isFalse (fun h => Value.noConfusion h)
  | .list _, .str _ => isFalse (fun h => Value.noConfusion h)
  | .list xs, .list ys =>
    match decEqLV xs ys with
    | isTrue h => isTrue (by rw [h])
    | isFalse h => isFalse (fun hh => h (Value.noConfusion hh id))
  | .list _, .dict _ => isFalse (fun h => Value.noConfusion h)
  | .dict _, .null => isFalse (fun h => Value.noConfusion h)
  | .dict _, .int _ => isFalse (fun h => Value.noConfusion h)
  | .dict _, .str _ => isFalse (fun h => Value.noConfusion h)
  | .dict _, .list _ => isFalse (fun h => Value.noConfusion h)
  | .dict xs, .dict ys =>
    match decEqPV xs ys with
    | isTrue h => isTrue (by rw [h])
    | isFalse h => isFalse (fun hh => h (Value.noConfusion hh id))

/-- Decidable equality of value lists (for `Value.list`). -/
def decEqLV : (a b : List Value) → Decidable (a = b)
  | [], [] => isTrue rfl
  | [], _ :: _ => isFalse (fun h => List.noConfusion h)
  | _ :: _, [] => isFalse (fun h => List.noConfusion h)
  | x :: xs, y :: ys =>
    match decEqV x y with
    | isFalse h1 => isFalse (fun hh => h1 (List.noConfusion hh (fun h _ => h)))
    | isTrue h1 =>
      match decEqLV xs ys with
      | isTrue h2 => isTrue (by rw [h1, h2])
      | isFalse h2 => isFalse (fun hh => h2 (List.noConfusion hh (fun _ h => h)))

/-- Decidable equality of key/value entry lists (for `Value.dict`). -/
def decEqPV : (a b : List (String × Value)) → Decidable (a = b)
  | [], [] => isTrue rfl
  | [], _ :: _ => isFalse (fun h => List.noConfusion h)
  | _ :: _, [] => isFalse (fun h => List.noConfusion h)
  | (k1, v1) :: xs, (k2, v2) :: ys =>
    match decEq k1 k2 with
    | isFalse h1 => isFalse (fun hh => h1 (by injection hh with h _; injection h))
    | isTrue h1 =>
      match decEqV v1 v2 with
      | isFalse h2 => isFalse (fun hh => h2 (by injection hh with h _; injection h))
      | isTrue h2 =>
        match decEqPV xs ys with
        | isTrue h3 => isTrue (by rw [h1, h2, h3])
        | isFalse h3 => isFalse (fun hh => h3 (by injection hh))
end

instance : DecidableEq Value := decEqV

/-- Decidable equality of evaluation results. -/
def decEqExc {ε α : Type} [DecidableEq ε] [DecidableEq α] : (a b : Except ε α) → Decidable (a = b)
  | .ok x, .ok y =>
    match decEq x y with
    | isTrue h => isTrue (by rw [h])
    | isFalse h => isFalse (fun hh => h (Except.noConfusion hh id))
  | .ok _, .error _ => isFalse (fun h => Except.noConfusion h)
  | .error _, .ok _ => isFalse (fun h => Except.noConfusion h)
  | .error x, .error y =>
    match decEq x y with
    | isTrue h => isTrue (by rw [h])
    | isFalse h => isFalse (fun hh => h (Except.noConfusion hh id))

instance {ε α : Type} [DecidableEq ε] [DecidableEq α] : DecidableEq (Except ε α) := decEqExc

/-- Python exception classes relevant to the module's handlers. -/
inductive PyErr where
  | keyError
  | indexError
  | typeError
  | valueError
deriving DecidableEq

/-- A typed subscript/key: the result of `int(...)` or a string key. -/
inductive Key where
  | int : Int → Key
  | str : String → Key
deriving DecidableEq

/-- An entry of the `keytypes` parameter: the callables `str` and `int`. -/
inductive KeyType where
  | str
  | int
deriving DecidableEq

/-- The module's default nil value: `nil = {"result" : "error"}` (line 118). -/
def nil : Value := .dict [("result", .str "error")]

/-! ### Character classes (ASCII approximations of the regex classes) -/

/-- Python regex `\s` (whitespace), restricted to ASCII. -/
def isWS (c : Char) : Bool :=
  c == ' ' || c == '\t' || c == '\n' || c == '\r' || c == '\x0b' || c == '\x0c'

/-- Python regex `\w` (word characters), restricted to ASCII. -/
def isWordChar (c : Char) : Bool :=
  c.isAlpha || c.isDigit || c == '_'

/-- The characters allowed inside a quoted subscript by `subscript_re`:
`(\w+|\d+|\s*)+`, i.e. any run of word characters and whitespace. -/
def isKeyChar (c : Char) : Bool :=
  isWordChar c || isWS c

/-- A quote character, as matched by `apex_re`. -/
def isQuote (c : Char) : Bool :=
  c == '\'' || c == '"'

/-! ### `int(...)` conversion -/

/-- Numeric value of a digit run (the run is validated by `digitsOk`). -/
def digitsVal (ds : List Char) : Int :=
  ds.foldl (fun acc c => acc * 10 + ((c.toNat : Int) - 48)) 0

/-- A nonempty run of decimal digits. -/
def digitsOk (ds : List Char) : Bool :=
  !ds.isEmpty && ds.all Char.isDigit

/-- Strip leading and trailing whitespace, as Python `int()` does before
parsing. -/
def trimWS (cs : List Char) : List Char :=
  ((cs.dropWhile isWS).reverse.dropWhile isWS).reverse

/-- Python `int(s)` on a string: optional sign followed by digits, with
surrounding whitespace allowed; `none` models the `ValueError` raised
otherwise.  (Underscore digit separators, accepted by CPython between digits,
are not modelled; no path in this development uses them.) -/
def pyInt (cs : List Char) : Option Int :=
  match trimWS cs with
  | [] => none
  | c :: ds =>
    if c = '-' then (if digitsOk ds then some (-(digitsVal ds)) else none)
    else if c = '+' then (if digitsOk ds then some (digitsVal ds) else none)
    else if digitsOk (c :: ds) then some (digitsVal (c :: ds)) else none

/-! ### `apex_re` quote stripping

`apex_re = (^\'|\'$)+|(^\"|\"$)+` with `re.sub("", ·)` removes exactly one
leading quote character (the `^`-anchored alternative can only consume one)
and one trailing quote character, each independently. -/

/-- Remove one trailing quote character, if present. -/
def dropLastQuote (cs : List Char) : List Char :=
  match cs.reverse with
  | c :: rest => if isQuote c then rest.reverse else cs
  | [] => cs

/-- `apex_re.sub("", s)`: remove one leading and one trailing quote. -/
def stripApex (cs : List Char) : List Char :=
  match cs with
  | c :: rest => if isQuote c then dropLastQuote rest else dropLastQuote cs
  | [] => []

/-! ### Container indexing (`obj[k]`) -/

/-- First-match lookup in a dict's entry list (Python dicts have unique keys,
so first-match agrees with Python lookup). -/
def dictGet : List (String × Value) → String → Option Value
  | [], _ => none
  | (k, v) :: rest, s => if k = s then some v else dictGet rest s

/-- Python sequence indexing with negative-index support:
`l[i]` for `-len l ≤ i < len l`. -/
def pyNth {α : Type} (l : List α) (i : Int) : Option α :=
  let j : Int := if i < 0 then i + l.length else i
  if j < 0 then none else l.get? j.toNat

/-- Python `v[k]`: dict lookup (`KeyError` when absent, also for int keys on a
string-keyed dict), list and string indexing (`IndexError` out of range,
`TypeError` for string keys), and `TypeError` on non-subscriptable values. -/
def pyIndex (v : Value) (k : Key) : Except PyErr Value :=
  match v, k with
  | .dict m, .str s =>
    match dictGet m s with
    | some x => .ok x
    | none => .error .keyError
  | .dict _, .int _ => .error .keyError
  | .list l, .int i =>
    match pyNth l i with
    | some x => .ok x
    | none => .error .indexError
  | .list _, .str _ => .error .typeError
  | .str s, .int i =>
    match pyNth s.data i with
    | some c => .ok (.str (String.mk [c]))
    | none => .error .indexError
  | .str _, .str _ => .error .typeError
  | _, _ => .error .typeError

/-- `isinstance(obj, (list, dict))`. -/
def isListOrDict : Value → Bool
  | .list _ => true
  | .dict _ => true
  | _ => false

/-! ### The `subscript_re` recognizer

`subscript_re` matches one or more consecutive bracket groups, where a group
is `[<digits>]`, `["<key-chars>"]` or `['<key-chars>']`.  `searchRun` models
`subscript_re.search` (first match, reported as its bracket-split token list,
which is how the source consumes `.group()`), and `subRuns` models
`subscript_re.sub("", ·)` (remove every match). -/

/-- Match one quoted bracket group starting after `[`: a quote, key
characters, the same quote, `]`.  Returns the token (with its quotes, as
produced by splitting the match on brackets) and the rest of the input. -/
def matchQuoted (cs : List Char) : Option (List Char × List Char) :=
  match cs with
  | [] => none
  | q :: rest1 =>
    if isQuote q = true then
      match rest1.dropWhile isKeyChar with
      | q2 :: c3 :: rest2 =>
        if q2 = q ∧ c3 = ']' then some (q :: rest1.takeWhile isKeyChar ++ [q], rest2)
        else none
      | _ => none
    else none

/-- Match a bracket group `[<digits>]` at the head of the interior `rest`
(the part after `[`): a nonempty digit run closed by `]`. -/
def matchDigits (rest : List Char) : Option (List Char × List Char) :=
  match rest.dropWhile Char.isDigit with
  | c2 :: rest2 =>
    if c2 = ']' ∧ rest.takeWhile Char.isDigit ≠ [] then
      some (rest.takeWhile Char.isDigit, rest2)
    else none
  | [] => none

/-- Match one bracket group `[<digits>]` / `["…"]` / `['…']` at the head of
the input; returns the group's interior token and the rest. -/
def matchGroup (cs : List Char) : Option (List Char × List Char) :=
  match cs with
  | [] => none
  | c :: rest =>
    if c = '[' then
      match matchDigits rest with
      | some res => some res
      | none => matchQuoted rest
    else none

/-- Greedily match a maximal run of consecutive bracket groups (fuelled; each
group consumes at least one character and one fuel unit). -/
def matchRunF : Nat → List Char → Option (List (List Char) × List Char)
  | 0, _ => none
  | f + 1, cs =>
    match matchGroup cs with
    | none => none
    | some (t, rest) =>
      match matchRunF f rest with
      | some (ts, rest2) => some (t :: ts, rest2)
      | none => some ([t], rest)

/-- Maximal run of bracket groups at the head of the input. -/
def matchRun (cs : List Char) : Option (List (List Char) × List Char) :=
  matchRunF (cs.length + 1) cs

/-- `subscript_re.search`: the leftmost run of bracket groups, as its list of
interior tokens (the source turns the matched text into exactly this list via
`brackets_re.split` and dropping empty fragments). -/
def searchRun : List Char → Option (List (List Char))
  | [] => none
  | c :: rest =>
    match matchRun (c :: rest) with
    | some (ts, _) => some ts
    | none => searchRun rest

/-- `subscript_re.sub("", ·)` (fuelled): remove every run of bracket groups,
keep all other characters. -/
def subRunsF : Nat → List Char → List Char
  | _, [] => []
  | 0, cs => cs
  | f + 1, c :: rest =>
    match matchRun (c :: rest) with
    | some (_, rest2) => subRunsF f rest2
    | none => c :: subRunsF f rest

/-- `subscript_re.sub("", cs)`. -/
def subRuns (cs : List Char) : List Char :=
  subRunsF (cs.length + 1) cs

/-! ### `str.split(sep)` -/

/-- Is the first list a prefix of the second? -/
def isPrefixCh : List Char → List Char → Bool
  | [], _ => true
  | _ :: _, [] => false
  | a :: as, b :: bs => a == b && isPrefixCh as bs

/-- Python `str.split(sep)` for a nonempty separator `s0 :: st` (fuelled;
each iteration consumes at least one character and spends one fuel unit). -/
def splitAuxF (s0 : Char) (st : List Char) : Nat → List Char → List Char → List (List Char)
  | _, [], acc => [acc.reverse]
  | 0, cs, acc => [acc.reverse ++ cs]
  | f + 1, c :: rest, acc =>
    if c = s0 ∧ isPrefixCh st rest = true then
      acc.reverse :: splitAuxF s0 st f (rest.drop st.length) []
    else
      splitAuxF s0 st f rest (c :: acc)

/-- Python `cs.split(s0 :: st)`. -/
def pySplit (s0 : Char) (st : List Char) (cs : List Char) : List (List Char) :=
  splitAuxF s0 st (cs.length + 1) cs []

/-- Join segments with a separator (the inverse of splitting, used to state
the separator-equivalence claim over abstract element lists). -/
def joinSep (sep : List Char) : List (List Char) → List Char
  | [] => []
  | [e] => e
  | e :: es => e ++ sep ++ joinSep sep es

/-! ### The evaluator (`jpath`, lines 120-257) -/

/-- Apply one `keytypes` entry `k` to the element text (`k(elem)`); `none`
models the conversion raising (e.g. `ValueError` from `int`). -/
def keyConv : KeyType → List Char → Option Key
  | .str, e => some (.str (String.mk e))
  | .int, e => (pyInt e).map Key.int

/-- One iteration of the key-type loop (lines 237-248): convert the element
text, index the cursor (or `source` when the cursor equals `null`), set the
cursor to `null` on `IndexError`/`KeyError`, and leave it unchanged on any
other exception (`except: pass`). -/
def keyTypeStep (source null : Value) (k : KeyType) (obj : Value) (e : List Char) : Value :=
  match keyConv k e with
  | none => obj
  | some key =>
    match (if obj = null then pyIndex source key else pyIndex obj key) with
    | .ok v => v
    | .error .keyError => null
    | .error .indexError => null
    | .error _ => obj

/-- The full key-type loop `for k in keytypes` (lines 237-248). -/
def keyTypeLoop (source null : Value) : List KeyType → Value → List Char → Value
  | [], obj, _ => obj
  | k :: ks, obj, e => keyTypeLoop source null ks (keyTypeStep source null k obj e) e

/-- Type a raw subscript token (lines 208-212): try `int(subscript)` first;
on failure use the quote-stripped text as a string key. -/
def subscriptKey (t : List Char) : Key :=
  match pyInt t with
  | some n => .int n
  | none => .str (String.mk (stripApex t))

/-- The subscript loop (lines 201-221): for each token, check the cursor is a
list or dict (else `TypeError`), then index the cursor — or `source` when the
cursor equals `null` — letting indexing exceptions propagate. -/
def applySubscripts (source null : Value) : List (List Char) → Value → Except PyErr Value
  | [], obj => .ok obj
  | t :: ts, obj =>
    let sc := subscriptKey t
    if isListOrDict obj then
      match (if obj = null then pyIndex source sc else pyIndex obj sc) with
      | .ok v => applySubscripts source null ts v
      | .error e => .error e
    else
      .error .typeError

/-- Process one path element (loop body, lines 151-248).  Empty elements are
skipped.  If `subscript_re` matches, the element's root (the element with all
subscript runs removed) is resolved first — against `source` when the cursor
equals `null` — and then the subscripts of the first run are applied.
Otherwise the element is a pure name: after the `isinstance` check, the
key-type loop runs with `keytypes` defaulted to `[str, int]` when empty (the
Python code rebinds an empty `keytypes` the first time a pure-name element is
processed, which is equivalent to this per-element defaulting because the
rebound value is the same constant).  `.error` marks an exception propagating
to the outer handler of `jpath`. -/
def stepElem (source null : Value) (kts : List KeyType) (obj : Value) (elem : List Char) : Except PyErr Value :=
  if elem = [] then .ok obj
  else
    match searchRun elem with
    | some tokens =>
      match
        (if subRuns elem = [] then
          .ok (if obj = null then source else obj)
        else
          (if obj = null then pyIndex source (.str (String.mk (subRuns elem)))
           else pyIndex obj (.str (String.mk (subRuns elem)))) : Except PyErr Value)
      with
      | .ok obj1 => applySubscripts source null tokens obj1
      | .error e => .error e
    | none =>
      if isListOrDict obj then
        .ok (keyTypeLoop source null (if kts = [] then [KeyType.str, KeyType.int] else kts) obj elem)
      else
        .error .typeError

/-- The element loop inside the outer `try` (lines 150-257): the cursor starts
at `null`; an exception from a step is caught by
`except (IndexError, KeyError, TypeError)` and turns the result into `null`
with no further elements processed.  (`stepElem` only ever raises those three
classes, so the bare-`BaseException` handler of the source is dead code.) -/
def evalLoop (source null : Value) (kts : List KeyType) : List (List Char) → Value → Value
  | [], obj => obj
  | e :: es, obj =>
    match stepElem source null kts obj e with
    | .ok obj1 => evalLoop source null kts es obj1
    | .error _ => null

/-- `jpath(source, path, keytypes, null, sep)` (lines 120-257).  An empty path
returns `source` unchanged.  `path.split(sep)` happens before the `try`
block, so an empty separator raises `ValueError` out of the function — the
only way `jpath` can raise. -/
def jpath (source : Value) (path : String) (kts : List KeyType) (null : Value) (sep : String) : Except PyErr Value :=
  match path.data with
  | [] => .ok source
  | p0 :: prest =>
    match sep.data with
    | [] => .error .valueError
    | s0 :: st => .ok (evalLoop source null kts (pySplit s0 st (p0 :: prest)) null)

/-- `jxpath(source, path, keytypes, null)` (lines 259-267): delegates to
`jpath` with `sep='/'` — but passes the module default `nil` as the sentinel
(`null=nil` in the source), not the caller's `null` argument. -/
def jxpath (source : Value) (path : String) (kts : List KeyType) (null : Value) : Except PyErr Value :=
  jpath source path kts nil "/"

/-- The module's default key-type priority `[str, int]`. -/
def defaultKts : List KeyType := [KeyType.str, KeyType.int]

/-- The module's example tree `d` (lines 40-64). -/
def dTree : Value :=
  .dict [
    ("test", .dict [
      ("path", .list [
        .dict [
          ("to", .list [
            .dict [("object5", .int 1)],
            .list [.int 0, .int 1, .int 2]
          ]),
          ("in", .list [
            .dict [("arrays", .list [
              .dict [("test", .int 7), ("\"\"", .int 42)]
            ])]
          ])
        ]
      ]),
      ("inner", .null)
    ])
  ]

/-- The module's example array `a` (lines 70-81). -/
def aTree : Value :=
  .list [
    .list [
      .list [.int 0, .int 0, .int 0],
      .list [.int 1, .int 2, .int 3],
      .list [.int 0, .int 0, .int 0]
    ],
    .list [
      .list [.int 1, .int 0, .int 0],
      .list [.int 0, .int 1, .int 0],
      .list [.int 0, .int 0, .int 1]
    ]
  ]

/-!
Section: Scanner and splitter lemmas

Symbolic facts about the fuelled scanners, used by the separator- and
quote-equivalence claims.  Fuel hypotheses are always of the form
`length < fuel`, which the `length + 1` wrappers satisfy.
-/

theorem takeWhile_append_stop {p : Char → Bool} (xs : List Char) (y : Char) (ys : List Char)
    (hx : ∀ c ∈ xs, p c = true) (hy : p y = false) :
    (xs ++ y :: ys).takeWhile p = xs := by
  induction xs with
  | nil => simp [List.takeWhile_cons, hy]
  | cons a as ih =>
    have ha : p a = true := hx a (by simp)
    rw [List.cons_append, List.takeWhile_cons, if_pos ha,
      ih (fun c hc => hx c (by simp [hc]))]

theorem dropWhile_append_stop {p : Char → Bool} (xs : List Char) (y : Char) (ys : List Char)
    (hx : ∀ c ∈ xs, p c = true) (hy : p y = false) :
    (xs ++ y :: ys).dropWhile p = y :: ys := by
  induction xs with
  | nil => simp [List.dropWhile_cons, hy]
  | cons a as ih =>
    have ha : p a = true := hx a (by simp)
    rw [List.cons_append, List.dropWhile_cons, if_pos ha]
    exact ih (fun c hc => hx c (by simp [hc]))

theorem isPrefixCh_append_self (st tail : List Char) : isPrefixCh st (st ++ tail) = true := by
  induction st with
  | nil => rfl
  | cons a as ih => simp [isPrefixCh, ih]

theorem splitAuxF_no_sep (s0 : Char) (st : List Char) :
    ∀ (f : Nat) (cs acc : List Char), cs.length < f → (∀ c ∈ cs, c ≠ s0) →
      splitAuxF s0 st f cs acc = [acc.reverse ++ cs] := by
  intro f
  induction f with
  | zero => intro cs acc h _; exact absurd h (Nat.not_lt_zero _)
  | succ f ih =>
    intro cs acc h hcs
    cases cs with
    | nil => simp [splitAuxF]
    | cons c rest =>
      have hcne : ¬(c = s0 ∧ isPrefixCh st rest = true) := by
        rintro ⟨h1, -⟩
        exact hcs c (by simp) h1
      simp only [splitAuxF]
      rw [if_neg hcne,
        ih rest (c :: acc) (by simpa using Nat.lt_of_succ_lt_succ h)
          (fun c2 hc2 => hcs c2 (by simp [hc2]))]
      simp

theorem splitAuxF_boundary (s0 : Char) (st : List Char) :
    ∀ (f : Nat) (e tail acc : List Char), e.length < f → (∀ c ∈ e, c ≠ s0) →
      splitAuxF s0 st f (e ++ (s0 :: (st ++ tail))) acc =
        (acc.reverse ++ e) :: splitAuxF s0 st (f - (e.length + 1)) tail [] := by
  intro f
  induction f with
  | zero => intro e tail acc h _; exact absurd h (Nat.not_lt_zero _)
  | succ f ih =>
    intro e tail acc h he
    cases e with
    | nil =>
      simp only [List.nil_append, splitAuxF, List.append_eq]
      rw [if_pos (by simp [isPrefixCh_append_self]), List.drop_left]
      simp
    | cons c e' =>
      have hcne : ¬(c = s0 ∧ isPrefixCh st (e' ++ (s0 :: (st ++ tail))) = true) := by
        rintro ⟨h1, -⟩
        exact he c (by simp) h1
      simp only [List.cons_append, splitAuxF, List.append_eq]
      rw [if_neg hcne,
        ih e' tail (c :: acc) (by simpa using Nat.lt_of_succ_lt_succ h)
          (fun c2 hc2 => he c2 (by simp [hc2]))]
      simp [Nat.succ_sub_succ]

theorem splitAuxF_fuel (s0 : Char) (st : List Char) :
    ∀ (f g : Nat) (cs acc : List Char), cs.length < f → cs.length < g →
      splitAuxF s0 st f cs acc = splitAuxF s0 st g cs acc := by
  intro f
  induction f with
  | zero => intro g cs acc h _; exact absurd h (Nat.not_lt_zero _)
  | succ f ih =>
    intro g cs acc h hg
    cases cs with
    | nil =>
      cases g with
      | zero => exact absurd hg (Nat.not_lt_zero _)
      | succ g => simp [splitAuxF]
    | cons c rest =>
      cases g with
      | zero => exact absurd hg (Nat.not_lt_zero _)
      | succ g =>
        have hlen : rest.length < f := by simpa using Nat.lt_of_succ_lt_succ h
        have hleng : rest.length < g := by simpa using Nat.lt_of_succ_lt_succ hg
        have hdrop : (rest.drop st.length).length ≤ rest.length := by
          rw [List.length_drop]; omega
        simp only [splitAuxF]
        by_cases hc : c = s0 ∧ isPrefixCh st rest = true
        · rw [if_pos hc, if_pos hc,
            ih g (rest.drop st.length) [] (by omega) (by omega)]
        · rw [if_neg hc, if_neg hc]
          exact ih g rest (c :: acc) hlen hleng

theorem pySplit_single (s0 : Char) (st : List Char) (cs : List Char)
    (h : ∀ c ∈ cs, c ≠ s0) : pySplit s0 st cs = [cs] := by
  unfold pySplit
  rw [splitAuxF_no_sep s0 st (cs.length + 1) cs [] (Nat.lt_succ_self _) h]
  simp

theorem pySplit_joinSep (s0 : Char) (st : List Char) :
    ∀ (es : List (List Char)), es ≠ [] → (∀ e ∈ es, ∀ c ∈ e, c ≠ s0) →
      pySplit s0 st (joinSep (s0 :: st) es) = es := by
  intro es
  induction es with
  | nil => intro h _; exact absurd rfl h
  | cons e es ih =>
    intro _ h
    cases es with
    | nil =>
      show pySplit s0 st e = [e]
      exact pySplit_single s0 st e (h e (by simp))
    | cons e2 es2 =>
      have hJ : joinSep (s0 :: st) (e :: e2 :: es2) = e ++ (s0 :: (st ++ joinSep (s0 :: st) (e2 :: es2))) := by
        simp [joinSep]
      unfold pySplit
      rw [hJ, splitAuxF_boundary s0 st _ e (joinSep (s0 :: st) (e2 :: es2)) []
        (by simp [List.length_append]; omega) (h e (by simp))]
      have hfuel :
          (e ++ (s0 :: (st ++ joinSep (s0 :: st) (e2 :: es2)))).length + 1 - (e.length + 1) >
            (joinSep (s0 :: st) (e2 :: es2)).length := by
        simp [List.length_append]
        omega
      rw [splitAuxF_fuel s0 st _ ((joinSep (s0 :: st) (e2 :: es2)).length + 1) _ []
        hfuel (Nat.lt_succ_self _)]
      have := ih (by simp) (fun e3 he3 c hc => h e3 (by simp [he3]) c hc)
      unfold pySplit at this
      rw [this]
      simp

theorem matchRunF_nil (f : Nat) : matchRunF f [] = none := by
  cases f with
  | zero => rfl
  | succ f => rfl

theorem matchRun_none (cs : List Char) (h : matchGroup cs = none) : matchRun cs = none := by
  unfold matchRun
  simp [matchRunF, h]

theorem matchRun_single (g t : List Char) (h : matchGroup g = some (t, [])) :
    matchRun g = some ([t], []) := by
  unfold matchRun
  simp [matchRunF, h, matchRunF_nil]

theorem matchGroup_head_ne (c : Char) (cs : List Char) (h : c ≠ '[') :
    matchGroup (c :: cs) = none := by
  simp only [matchGroup]
  rw [if_neg h]

theorem searchRun_skip (r cs : List Char) (h : ∀ c ∈ r, c ≠ '[') :
    searchRun (r ++ cs) = searchRun cs := by
  induction r with
  | nil => rfl
  | cons c r' ih =>
    have hg : matchGroup (c :: (r' ++ cs)) = none := matchGroup_head_ne c _ (h c (by simp))
    have hm := matchRun_none _ hg
    simp only [List.cons_append, searchRun, List.append_eq, hm]
    exact ih (fun c2 hc2 => h c2 (by simp [hc2]))

theorem searchRun_group (c : Char) (grest t : List Char)
    (h : matchGroup (c :: grest) = some (t, [])) :
    searchRun (c :: grest) = some [t] := by
  simp [searchRun, matchRun_single _ _ h]

theorem subRunsF_skip : ∀ (f : Nat) (r cs : List Char), (∀ c ∈ r, c ≠ '[') →
    (r ++ cs).length < f → subRunsF f (r ++ cs) = r ++ subRunsF (f - r.length) cs := by
  intro f
  induction f with
  | zero => intro r cs _ h; exact absurd h (Nat.not_lt_zero _)
  | succ f ih =>
    intro r cs hr h
    cases r with
    | nil => simp
    | cons c r' =>
      have hg : matchGroup (c :: (r' ++ cs)) = none := matchGroup_head_ne c _ (hr c (by simp))
      have hm := matchRun_none _ hg
      simp only [List.cons_append, subRunsF, List.append_eq, hm]
      rw [ih r' cs (fun c2 hc2 => hr c2 (by simp [hc2]))
        (by simpa using Nat.lt_of_succ_lt_succ h)]
      simp [Nat.succ_sub_succ]

theorem subRunsF_one_group (f : Nat) (g t : List Char) (hg : matchGroup g = some (t, []))
    (hf : g.length < f) : subRunsF f g = [] := by
  cases g with
  | nil => simp [subRunsF]
  | cons c grest =>
    cases f with
    | zero => exact absurd hf (Nat.not_lt_zero _)
    | succ f =>
      simp [subRunsF, matchRun_single _ _ hg]

theorem subRuns_skip_group (r g t : List Char) (hr : ∀ c ∈ r, c ≠ '[')
    (hg : matchGroup g = some (t, [])) : subRuns (r ++ g) = r := by
  unfold subRuns
  rw [subRunsF_skip ((r ++ g).length + 1) r g hr (Nat.lt_succ_self _)]
  rw [subRunsF_one_group _ g t hg (by simp [List.length_append]; omega)]
  simp

theorem matchGroup_quoted (k rest0 : List Char) (hk : ∀ c ∈ k, isKeyChar c = true) :
    matchGroup ('[' :: '"' :: (k ++ '"' :: ']' :: rest0)) =
      some ('"' :: (k ++ ['"']), rest0) := by
  have hkq : isKeyChar '"' = false := by decide
  have htake := takeWhile_append_stop (p := isKeyChar) k '"' (']' :: rest0) hk hkq
  have hdrop := dropWhile_append_stop (p := isKeyChar) k '"' (']' :: rest0) hk hkq
  simp [matchGroup, matchDigits, matchQuoted, htake, hdrop, isQuote]

theorem trimWS_guard (q : Char) (k : List Char) (hq : isWS q = false) :
    trimWS (q :: (k ++ [q])) = q :: (k ++ [q]) := by
  unfold trimWS
  rw [List.dropWhile_cons, if_neg (by simp [hq])]
  have h1 : (q :: (k ++ [q])).reverse = q :: (k.reverse ++ [q]) := by simp
  rw [h1, List.dropWhile_cons, if_neg (by simp [hq])]
  simp

theorem pyInt_quoted (k : List Char) : pyInt ('"' :: (k ++ ['"'])) = none := by
  unfold pyInt
  rw [trimWS_guard '"' k (by decide)]
  simp [digitsOk]

theorem stripApex_quoted (q : Char) (k : List Char) (hq : isQuote q = true) :
    stripApex (q :: (k ++ [q])) = k := by
  have h1 : (k ++ [q]).reverse = q :: k.reverse := by simp
  simp [stripApex, hq, dropLastQuote, h1]

theorem subscriptKey_quoted (k : List Char) :
    subscriptKey ('"' :: (k ++ ['"'])) = .str (String.mk k) := by
  simp [subscriptKey, pyInt_quoted, stripApex_quoted '"' k (by decide)]

theorem wordChar_props (c : Char) (h : isWordChar c = true) :
    c ≠ '[' ∧ c ≠ '-' ∧ c ≠ '>' ∧ c ≠ '/' ∧ isKeyChar c = true := by
  refine ⟨?_, ?_, ?_, ?_, by simp [isKeyChar, h]⟩ <;> rintro rfl <;> exact absurd h (by decide)

theorem jpath_run (source : Value) (pcs : List Char) (hp : pcs ≠ [])
    (kts : List KeyType) (null : Value) :
    jpath source (String.mk pcs) kts null "->" =
      .ok (evalLoop source null kts (pySplit '-' ['>'] pcs) null) := by
  cases pcs with
  | nil => exact absurd rfl hp
  | cons c cs => rfl

theorem jpath_runSlash (source : Value) (pcs : List Char) (hp : pcs ≠ [])
    (kts : List KeyType) (null : Value) :
    jpath source (String.mk pcs) kts null "/" =
      .ok (evalLoop source null kts (pySplit '/' [] pcs) null) := by
  cases pcs with
  | nil => exact absurd rfl hp
  | cons c cs => rfl

/-!
Section: Sanity checks

The twenty entries of the module's own test tables (`testcases`, lines
283-314, and `testcases_jx`, lines 316-320) evaluated in the embedding; every
expected value below is the one the Python test table asserts.
-/

theorem sanityTestcases :
    jpath dTree "test->path[0]->to[0]->object5" defaultKts nil "->" = .ok (.int 1) ∧
    jpath dTree "test->path[0]->to[0]->object5[7]" defaultKts nil "->" = .ok nil ∧
    jpath dTree "test->path[0]->to[0]->object5[7][0]" defaultKts nil "->" = .ok nil ∧
    jpath dTree "test->path[0]->to[0]->object5->abc" defaultKts nil "->" = .ok nil ∧
    jpath dTree "test->path[0]->to[1][2]" defaultKts nil "->" = .ok (.int 2) ∧
    jpath dTree "test->inner" defaultKts nil "->" = .ok .null ∧
    jpath dTree "test[path]" defaultKts nil "->" = .ok nil ∧
    jpath dTree "test->path[0]->in[0]->arrays[0]['test abc']" defaultKts nil "->" = .ok nil ∧
    jpath dTree "test->path[0]->in[0]->arrays[0][\"\"]" defaultKts nil "->" = .ok nil ∧
    jpath dTree "test->path[0]->in[0]->arrays[1]" defaultKts nil "->" = .ok nil ∧
    jpath dTree "test->path[0]->in[0]->arrays[0]->test" defaultKts nil "->" = .ok (.int 7) ∧
    jpath dTree "['test']['path'][0][\"to\"][0][\"object5\"]" defaultKts nil "->" = .ok (.int 1) ∧
    jpath dTree "['test']['path'][0]['to'][5]" defaultKts nil "->" = .ok nil ∧
    jpath dTree "test->path[5]->in[0]->arrays[0]['test abc']" defaultKts nil "->" = .ok nil ∧
    jpath aTree "[0][1][1]" defaultKts nil "->" = .ok (.int 2) ∧
    jpath aTree "0->1->1" defaultKts nil "->" = .ok (.int 2) ∧
    jpath aTree "0->1" defaultKts nil "->" = .ok (.list [.int 1, .int 2, .int 3]) ∧
    jpath aTree "9" defaultKts nil "->" = .ok nil ∧
    jxpath dTree "//test/path[0]/in[0]/arrays[0]/test" defaultKts nil = .ok (.int 7) ∧
    jxpath dTree "//test/path[0]/to[0]" defaultKts nil = .ok (.dict [("object5", .int 1)]) := by
  decide

theorem sanityTestcasesLong :
    jpath dTree "test['path']" defaultKts nil "->" =
      .ok (.list [.dict [
        ("to", .list [.dict [("object5", .int 1)], .list [.int 0, .int 1, .int 2]]),
        ("in", .list [.dict [("arrays", .list [.dict [("test", .int 7), ("\"\"", .int 42)]])]])]]) ∧
    jxpath dTree "//test/path[0]/in[0]/arrays[0]" defaultKts nil =
      .ok (.dict [("test", .int 7), ("\"\"", .int 42)]) := by
  decide

/-!
Section: Claims
-/

/-- Claim C1, counterexample: the claim says any missing-key step failure
collapses the whole evaluation to the sentinel with no later element
processed.  But for `{"a": 1}` and path `"zzz->a"`, the missing key `"zzz"`
(a pure-name element) merely resets the cursor to the sentinel, the loop
continues, and the later element `"a"` is resolved against the source tree:
the call returns `1`, not the sentinel. -/
theorem C1_counterexample :
    jpath (Value.dict [("a", Value.int 1)]) "zzz->a" defaultKts nil "->" = .ok (Value.int 1) ∧
    Value.int 1 ≠ nil := by
  decide

/-- Claim C1 (amended): a traversal step that raises — a type violation
anywhere, or a missing key / out-of-range index during root resolution or
subscript application — collapses the whole evaluation: no further element is
processed and exactly the sentinel is returned.  (A missing key or index in a
pure-name element is not such a failure: it resets the cursor to the sentinel
and the loop continues, as the counterexample shows.) -/
theorem C1_amended (source null : Value) (kts : List KeyType) (obj : Value)
    (e : List Char) (es : List (List Char)) (err : PyErr)
    (h : stepElem source null kts obj e = .error err) :
    evalLoop source null kts (e :: es) obj = null := by
  simp [evalLoop, h]

/-- Witness for `C1_amended` at a concrete failing step: subscripting the
scalar `0` raises `TypeError` and the remaining element `['y']` is never
processed. -/
theorem C1_witness :
    evalLoop (Value.dict []) nil defaultKts [['x'], ['y']] (Value.int 0) = nil :=
  C1_amended (Value.dict []) nil defaultKts (Value.int 0) ['x'] [['y']] PyErr.typeError (by decide)

/-- Claim C2, counterexample: for source `{"0": [10, 20]}` and pure-name
element `"0"`, the first key type (`str`) converts and indexes successfully,
yielding `[10, 20]` — but the result of the call is `10`, because the later
`int` key type indexes again into the value obtained by `str`.  The first
succeeding type does not determine the result. -/
theorem C2_counterexample :
    pyIndex (Value.dict [("0", Value.list [Value.int 10, Value.int 20])]) (Key.str "0")
      = .ok (Value.list [Value.int 10, Value.int 20]) ∧
    jpath (Value.dict [("0", Value.list [Value.int 10, Value.int 20])]) "0" defaultKts nil "->"
      = .ok (Value.int 10) ∧
    Value.int 10 ≠ Value.list [Value.int 10, Value.int 20] := by
  decide

/-- Claim C2 (amended): for a pure-name element the key types are attempted in
`keytypes` order, each against the *current* cursor: a type whose conversion
and indexing succeed replaces the cursor by the indexed value, and the later
types are then attempted against that updated cursor (so a later success
indexes further into an earlier result); a `KeyError`/`IndexError` resets the
cursor to the sentinel and any other failure leaves it unchanged.  The loop is
exactly a left fold of the single-type step. -/
theorem C2_amended (source null : Value) (ks : List KeyType) (obj : Value) (e : List Char) :
    keyTypeLoop source null ks obj e =
      ks.foldl (fun o k => keyTypeStep source null k o e) obj := by
  induction ks generalizing obj with
  | nil => rfl
  | cons k ks ih => simp [keyTypeLoop, List.foldl, ih]

/-- Claim C3: `jxpath` does *not* delegate identically for a caller-supplied
sentinel: its body passes the module default (`null=nil`), dropping the
caller's `null`.  With sentinel `42`, `jpath(…, sep="/")` returns `42` (the
cursor starts at `42`, a non-container, so the first pure-name element raises
`TypeError` and the handler sets the result to the sentinel `42`), while
`jxpath` returns the default `nil` — so the two disagree. -/
theorem C3_theorem :
    jxpath (Value.dict []) "a" defaultKts (Value.int 42) = .ok nil ∧
    jpath (Value.dict []) "a" defaultKts (Value.int 42) "/" = .ok (Value.int 42) ∧
    jxpath (Value.dict []) "a" defaultKts (Value.int 42) ≠
      jpath (Value.dict []) "a" defaultKts (Value.int 42) "/" := by
  decide

/-- Claim C4: evaluating the empty path returns the tree itself unchanged,
for every tree, key-type list, sentinel and separator. -/
theorem C4_empty_path (source : Value) (kts : List KeyType) (null : Value) (sep : String) :
    jpath source "" kts null sep = .ok source := rfl

/-- Claim C5: subscript tokens are typed integer-parse-first, else
quote-stripped string: `[0]`/`[1]` are integer-typed, `["0"]`/`['0']`/`["1"]`
are string-typed; consequently on the array `[10, 20, 30]` the subscript
`[1]` yields `20` while the quoted subscript `["1"]` yields the sentinel
(arrays reject string-typed subscripts with `TypeError`). -/
theorem C5_subscript_typing :
    subscriptKey ['0'] = Key.int 0 ∧
    subscriptKey ['"', '0', '"'] = Key.str "0" ∧
    subscriptKey ['\'', '0', '\''] = Key.str "0" ∧
    subscriptKey ['1'] = Key.int 1 ∧
    subscriptKey ['"', '1', '"'] = Key.str "1" ∧
    jpath (Value.list [Value.int 10, Value.int 20, Value.int 30]) "[1]" defaultKts nil "->"
      = .ok (Value.int 20) ∧
    jpath (Value.list [Value.int 10, Value.int 20, Value.int 30]) "[\"1\"]" defaultKts nil "->"
      = .ok nil := by
  decide

/-- Claim C6, counterexample: with an empty separator the call does not
return normally — `path.split(sep)` sits before the `try` block and raises
`ValueError` out of `jpath`. -/
theorem C6_counterexample :
    jpath (Value.dict []) "a" defaultKts nil "" = .error PyErr.valueError := by
  decide

/-- Claim C6 (amended): for every *nonempty* separator, `jpath` returns
normally — every failure inside the element loop is caught and encoded in the
returned value, so the call always produces a value.  (The empty separator is
the single exception, per the counterexample.) -/
theorem C6_amended (source : Value) (path : String) (kts : List KeyType) (null : Value)
    (sep : String) (h : sep ≠ "") :
    ∃ v, jpath source path kts null sep = .ok v := by
  unfold jpath
  match hp : path.data with
  | [] => exact ⟨source, rfl⟩
  | p0 :: prest =>
    match hs : sep.data with
    | [] =>
      exact absurd (by cases sep with | mk l => cases hs; rfl) h
    | s0 :: st =>
      exact ⟨_, rfl⟩

/-- Witness for `C6_amended` at the default separator. -/
theorem C6_witness :
    ∃ v, jpath (Value.dict []) "a" defaultKts nil "->" = .ok v :=
  C6_amended (Value.dict []) "a" defaultKts nil "->" (by decide)

/-- Claim C9: a stored native null is returned as-is and stays distinguishable
from the sentinel: on the module's tree `d`, `test->inner` evaluates to the
stored `None`, which is a different value from the default sentinel. -/
theorem C9_native_null :
    jpath dTree "test->inner" defaultKts nil "->" = .ok Value.null ∧
    Value.null ≠ nil := by
  decide

/-- Claim C10: the cursor is compared to the sentinel by structural equality.
When a traversal step yields a tree value equal to the configured sentinel
(`{"result": "error"}` under the default), the next element is resolved
against the whole source tree instead of that value: in the first scenario the
pure-name element `b` is looked up in the source (the cursor value has no key
`b` at all), and in the second the subscript `[1]` is applied to the source
list (the cursor value, a dict, would raise `KeyError` for key `1`). -/
theorem C10_sentinel_collision :
    jpath (Value.dict [("a", Value.dict [("result", Value.str "error")]), ("b", Value.int 7)])
        "a->b" defaultKts nil "->" = .ok (Value.int 7) ∧
    pyIndex (Value.dict [("result", Value.str "error")]) (Key.str "b") = .error PyErr.keyError ∧
    jpath (Value.list [Value.dict [("result", Value.str "error")], Value.int 9])
        "[0][1]" defaultKts nil "->" = .ok (Value.int 9) ∧
    pyIndex (Value.dict [("result", Value.str "error")]) (Key.int 1) = .error PyErr.keyError ∧
    Value.dict [("result", Value.str "error")] = nil := by
  decide

/-- Claim C8: a path written with the `->` separator evaluated by `jpath`
and the same path rewritten with `/` evaluated by `jxpath` yield the same
result, under the default sentinel and key types, whenever the path's
elements contain no character of either dialect's separator.  The statement
quantifies over the abstract element list `es` and joins it with each
dialect's separator, which is precisely "the same path rewritten". -/
theorem C8_sep_equiv (t : Value) (es : List (List Char))
    (h : ∀ e ∈ es, ∀ c ∈ e, c ≠ '-' ∧ c ≠ '>' ∧ c ≠ '/') :
    jpath t (String.mk (joinSep ['-', '>'] es)) defaultKts nil "->" =
      jxpath t (String.mk (joinSep ['/'] es)) defaultKts nil := by
  unfold jxpath
  cases es with
  | nil => rfl
  | cons e es' =>
    cases es' with
    | nil =>
      cases e with
      | nil => rfl
      | cons c e2 =>
        show jpath t (String.mk (c :: e2)) _ nil "->" = jpath t (String.mk (c :: e2)) _ nil "/"
        rw [jpath_run t (c :: e2) (by simp) _ nil, jpath_runSlash t (c :: e2) (by simp) _ nil]
        rw [pySplit_single '-' ['>'] (c :: e2) (fun c2 hc2 => (h _ (by simp) c2 hc2).1),
          pySplit_single '/' [] (c :: e2) (fun c2 hc2 => (h _ (by simp) c2 hc2).2.2)]
    | cons e2 es2 =>
      have hJ1 : joinSep ['-', '>'] (e :: e2 :: es2) ≠ [] := by
        cases e <;> simp [joinSep]
      have hJ2 : joinSep ['/'] (e :: e2 :: es2) ≠ [] := by
        cases e <;> simp [joinSep]
      rw [jpath_run t _ hJ1 _ nil, jpath_runSlash t _ hJ2 _ nil]
      rw [pySplit_joinSep '-' ['>'] (e :: e2 :: es2) (by simp)
          (fun e3 he3 c hc => (h e3 he3 c hc).1),
        pySplit_joinSep '/' [] (e :: e2 :: es2) (by simp)
          (fun e3 he3 c hc => (h e3 he3 c hc).2.2)]

/-- Witness for `C8_sep_equiv`: `a->b[0]` under `jpath` agrees with `a/b[0]`
under `jxpath` on a tree containing neither separator character in its keys. -/
theorem C8_witness :
    jpath (Value.dict [("a", Value.dict [("b", Value.list [Value.int 5])])])
        (String.mk (joinSep ['-', '>'] [['a'], ['b', '[', '0', ']']])) defaultKts nil "->" =
      jxpath (Value.dict [("a", Value.dict [("b", Value.list [Value.int 5])])])
        (String.mk (joinSep ['/'] [['a'], ['b', '[', '0', ']']])) defaultKts nil :=
  C8_sep_equiv (Value.dict [("a", Value.dict [("b", Value.list [Value.int 5])])])
    [['a'], ['b', '[', '0', ']']] (by decide)

/-- Claim C7, counterexample: with the tree `{"x": [1, 2]}` and the simple
identifier key `k`, the bracketed form `x["k"]` yields the sentinel (a string
subscript on a list raises `TypeError`), but the arrow form `x->k` yields
`[1, 2]`: in the key-type loop the `TypeError` from `list["k"]` is swallowed
by the bare `except: pass` and the `int` conversion of `"k"` fails, so the
cursor passes through unchanged.  The two forms disagree. -/
theorem C7_counterexample :
    jpath (Value.dict [("x", Value.list [Value.int 1, Value.int 2])]) "x[\"k\"]"
        defaultKts nil "->" = .ok nil ∧
    jpath (Value.dict [("x", Value.list [Value.int 1, Value.int 2])]) "x->k"
        defaultKts nil "->" = .ok (Value.list [Value.int 1, Value.int 2]) ∧
    (Except.ok nil : Except PyErr Value) ≠ .ok (Value.list [Value.int 1, Value.int 2]) := by
  decide

/-- Claim C7 (amended): the quote-vs-bare equivalence holds when the value
being indexed is an object (dict) distinct from the sentinel: for a source
`{r: M}` with `M` a dict, a nonempty word-character root `r` and a nonempty
word-character key `k`, neither of which parses as an integer, the bracketed
path `r["k"]` and the arrow path `r->k` evaluate identically under the
default key types and sentinel — both when `k` resolves in `M` and when it is
missing.  (Over arrays the two forms diverge, as the counterexample shows,
and a cursor equal to the sentinel would re-resolve against the source.) -/
theorem C7_amended (m : List (String × Value)) (r k : List Char)
    (hr : r ≠ []) (hrw : ∀ c ∈ r, isWordChar c = true) (hri : pyInt r = none)
    (hk0 : k ≠ []) (hkw : ∀ c ∈ k, isWordChar c = true) (hki : pyInt k = none)
    (hm : Value.dict m ≠ nil) :
    jpath (Value.dict [(String.mk r, Value.dict m)])
        (String.mk (r ++ '[' :: '"' :: (k ++ ['"', ']']))) defaultKts nil "->" =
      jpath (Value.dict [(String.mk r, Value.dict m)])
        (String.mk (r ++ '-' :: '>' :: k)) defaultKts nil "->" := by
  have hrBr : ∀ c ∈ r, c ≠ '[' := fun c hc => (wordChar_props c (hrw c hc)).1
  have hrDash : ∀ c ∈ r, c ≠ '-' := fun c hc => (wordChar_props c (hrw c hc)).2.1
  have hkKey : ∀ c ∈ k, isKeyChar c = true := fun c hc => (wordChar_props c (hkw c hc)).2.2.2.2
  have hkDash : ∀ c ∈ k, c ≠ '-' := fun c hc => (wordChar_props c (hkw c hc)).2.1
  have hkBr : ∀ c ∈ k, c ≠ '[' := fun c hc => (wordChar_props c (hkw c hc)).1
  have hgrp : matchGroup ('[' :: '"' :: (k ++ ['"', ']'])) = some ('"' :: (k ++ ['"']), []) :=
    matchGroup_quoted k [] hkKey
  have hno1 : ∀ c ∈ r ++ '[' :: '"' :: (k ++ ['"', ']']), c ≠ '-' := by
    intro c hc
    rcases List.mem_append.1 hc with h1 | h2
    · exact hrDash c h1
    · simp only [List.mem_cons, List.mem_append, List.mem_singleton,
        List.not_mem_nil, or_false] at h2
      rcases h2 with rfl | rfl | hk2 | rfl | rfl
      · decide
      · decide
      · exact hkDash c hk2
      · decide
      · decide
  have hsplit1 : pySplit '-' ['>'] (r ++ '[' :: '"' :: (k ++ ['"', ']'])) =
      [r ++ '[' :: '"' :: (k ++ ['"', ']'])] := pySplit_single _ _ _ hno1
  have hsplit2 : pySplit '-' ['>'] (r ++ '-' :: '>' :: k) = [r, k] := by
    unfold pySplit
    have hb := splitAuxF_boundary '-' ['>'] ((r ++ '-' :: '>' :: k).length + 1) r k []
      (by simp [List.length_append]; omega) hrDash
    simp only [List.cons_append, List.nil_append] at hb
    rw [hb, splitAuxF_no_sep '-' ['>'] _ k []
      (by simp [List.length_append]; omega) hkDash]
    simp
  have hsearch1 : searchRun (r ++ '[' :: '"' :: (k ++ ['"', ']'])) =
      some ['"' :: (k ++ ['"'])] := by
    rw [searchRun_skip r _ hrBr, searchRun_group '[' _ _ hgrp]
  have hsub1 : subRuns (r ++ '[' :: '"' :: (k ++ ['"', ']'])) = r :=
    subRuns_skip_group r _ _ hrBr hgrp
  have hsr : searchRun r = none := by
    have := searchRun_skip r [] hrBr
    simpa using this
  have hsrk : searchRun k = none := by
    have := searchRun_skip k [] hkBr
    simpa using this
  have hne1 : (r ++ '[' :: '"' :: (k ++ ['"', ']'])) ≠ [] := by simp
  have hm' : ¬(m = [("result", Value.str "error")]) := fun h => hm (by rw [nil, h])
  rw [jpath_run _ _ hne1 defaultKts nil,
    jpath_run _ _ (by cases r <;> simp) defaultKts nil, hsplit1, hsplit2]
  cases hd : dictGet m (String.mk k) with
  | some v =>
    simp [evalLoop, stepElem, hsearch1, hsub1, hsr, hsrk, hr, hk0, hne1, applySubscripts,
      subscriptKey_quoted, keyTypeLoop, keyTypeStep, keyConv, hri, hki, hm', pyIndex, dictGet,
      hd, isListOrDict, defaultKts, nil]
  | none =>
    simp [evalLoop, stepElem, hsearch1, hsub1, hsr, hsrk, hr, hk0, hne1, applySubscripts,
      subscriptKey_quoted, keyTypeLoop, keyTypeStep, keyConv, hri, hki, hm', pyIndex, dictGet,
      hd, isListOrDict, defaultKts, nil]

/-- Witness for `C7_amended`: over `{"x": {"a": 5}}`, the bracketed path
`x["a"]` and the arrow path `x->a` evaluate identically. -/
theorem C7_witness :
    jpath (Value.dict [(String.mk ['x'], Value.dict [("a", Value.int 5)])])
        (String.mk (['x'] ++ '[' :: '"' :: (['a'] ++ ['"', ']']))) defaultKts nil "->" =
      jpath (Value.dict [(String.mk ['x'], Value.dict [("a", Value.int 5)])])
        (String.mk (['x'] ++ '-' :: '>' :: ['a'])) defaultKts nil "->" :=
  C7_amended [("a", Value.int 5)] ['x'] ['a'] (by decide) (by decide) (by decide)
    (by decide) (by decide) (by decide) (by decide)

end JPath
